import Mathlib

/-!
Verification of the hydration and write-propagation engine of the
personal-expense-tracker backend (`backend/hydration.py`,
`backend/google_sheets_service.py`, the sync sections of
`backend/main.py`), as a shallow embedding in Lean 4.

Conventions of the embedding:
* spreadsheet cell values and datetimes are `String`s;
* Python `float` amounts are modelled as `ℚ` (`parseFloat` models the
  `float()` builtin on plain decimal literals, the only shapes the claims
  exercise);
* the SQL cache is a record of lists of rows with explicit fresh-id
  counters (SQLModel autoincrement primary keys);
* remote calls are recorded as events so that temporal claims about which
  remote operations are issued can be stated;
* the current wall-clock time (`datetime.utcnow()`) is passed in as an
  explicit `now : String` parameter.
-/

namespace ExpenseTracker

/-- Model of Python `str.upper()` (sheet values are ASCII). -/
def upperAscii (s : String) : String := String.mk (s.toList.map Char.toUpper)

/-- Model of Python `s.split(c)[0] if c in s else s`: the prefix of `s`
before the first occurrence of `c`. -/
def beforeChar (c : Char) (s : String) : String :=
  String.mk (s.toList.takeWhile (fun ch => ch ≠ c))

/-- Model of Python `s.startswith(p)`. -/
def strStarts (s p : String) : Bool := p.toList.isPrefixOf s.toList

/-- Model of Python `date_str.replace('Z', '+00:00')`
(`backend/hydration.py` line 133). -/
def replaceZ (s : String) : String :=
  String.mk (s.toList.foldr
    (fun ch acc => if ch = 'Z' then '+' :: '0' :: '0' :: ':' :: '0' :: '0' :: acc else ch :: acc)
    [])

/-- Numeric value of a digit string. -/
def digitsToNat (cs : List Char) : ℕ :=
  cs.foldl (fun n c => 10 * n + (c.toNat - '0'.toNat)) 0

/-- Model of the Python builtin `float(s)` on decimal literals: an optional
sign, an integer part and an optional fractional part, at least one digit
overall. Returns `none` exactly when `float()` raises `ValueError`
(scientific notation, `inf`/`nan` and surrounding whitespace are not
exercised by any claim and are treated as failures). -/
def parseFloat (s : String) : Option ℚ :=
  let p := fun (sgn : ℤ) (cs : List Char) =>
    let intP := cs.takeWhile Char.isDigit
    let rest := cs.dropWhile Char.isDigit
    match rest with
    | [] => if intP = [] then none else some (mkRat (sgn * (digitsToNat intP : ℤ)) 1)
    | '.' :: frac =>
      if frac.all Char.isDigit ∧ (intP ≠ [] ∨ frac ≠ []) then
        some (mkRat
          (sgn * ((digitsToNat intP : ℤ) * (10 : ℤ) ^ frac.length + (digitsToNat frac : ℤ)))
          ((10 : ℕ) ^ frac.length))
      else none
    | _ => none
  match s.toList with
  | '-' :: tl => p (-1) tl
  | '+' :: tl => p 1 tl
  | cs => p 1 cs

/-- Boolean-flag parsing used during hydration: a textual sheet flag is
true exactly when `str(v).upper() == 'TRUE'` (`backend/hydration.py`
lines 65-66 for `is_active` and lines 138-139 for `deleted`). -/
def parseSheetBool (s : String) : Bool := upperAscii s == "TRUE"

/-- Model of `datetime.fromisoformat` restricted to what the claims need:
it succeeds on a `YYYY-MM-DD` date optionally followed by a `T`/space
separated time part, and fails on anything else. A successful parse is
represented by the input string itself (the stored datetime is determined
by the input, which is all the claims use). -/
def isoParse (s : String) : Option String :=
  match s.toList with
  | y1 :: y2 :: y3 :: y4 :: '-' :: m1 :: m2 :: '-' :: d1 :: d2 :: rest =>
    if ([y1, y2, y3, y4, m1, m2, d1, d2].all Char.isDigit) then
      match rest with
      | [] => some s
      | sep :: tl =>
        if (sep = 'T' ∨ sep = ' ') ∧ tl ≠ [] ∧
            tl.all (fun c => c.isDigit ∨ c = ':' ∨ c = '.' ∨ c = '+' ∨ c = '-') then
          some s
        else none
    else none
  | _ => none

/-! ## Cache data model (`backend/models.py`) -/

/-- Row of the `users` table (`backend/models.py`, class `User`); only the
columns the core reads are carried. -/
structure UserRow where
  user_id : String
  email : String
  name : String
  categories_sheet_id : String
  expenses_sheet_id : String
  deriving Repr, DecidableEq

/-- Row of the `category1` table (`backend/models.py`, class `Category1`). -/
structure Category1Row where
  id : ℕ
  user_id : String
  name : String
  active : Bool
  created_at : String
  deriving Repr, DecidableEq

/-- Row of the `category2` table (`backend/models.py`, class `Category2`). -/
structure Category2Row where
  id : ℕ
  user_id : String
  name : String
  c1_id : ℕ
  c1_name : String
  active : Bool
  created_at : String
  deriving Repr, DecidableEq

/-- Row of the `expenses` table (`backend/models.py`, class `Expense`). -/
structure ExpenseRow where
  id : ℕ
  user_id : String
  date : String
  amount : ℚ
  c1_id : ℕ
  c2_id : ℕ
  c1_name : String
  c2_name : String
  payment_mode : String
  notes : Option String
  person : Option String
  need_vs_want : Option String
  deleted : Bool
  created_at : String
  updated_at : String
  deriving Repr, DecidableEq

/-- The local cache database: the four tables the core touches, plus the
autoincrement counters for the three per-user tables. -/
structure DB where
  users : List UserRow
  category1 : List Category1Row
  category2 : List Category2Row
  expenses : List ExpenseRow
  nextC1Id : ℕ
  nextC2Id : ℕ
  nextExpId : ℕ
  deriving Repr, DecidableEq

/-- Model of `session.get(User, user_id)`. -/
def DB.findUser (db : DB) (uid : String) : Option UserRow :=
  db.users.find? (fun u => u.user_id == uid)

/-- A user's rows in the `category1` table. -/
def DB.userC1 (db : DB) (uid : String) : List Category1Row :=
  db.category1.filter (fun r => r.user_id == uid)

/-- A user's rows in the `category2` table. -/
def DB.userC2 (db : DB) (uid : String) : List Category2Row :=
  db.category2.filter (fun r => r.user_id == uid)

/-- A user's rows in the `expenses` table. -/
def DB.userExpenses (db : DB) (uid : String) : List ExpenseRow :=
  db.expenses.filter (fun r => r.user_id == uid)

/-- A database with no rows at all. -/
def DB.empty : DB := ⟨[], [], [], [], 0, 0, 0⟩

/-! ## Sheet row model (`gspread get_all_records` output)

`get_all_records` returns one dict per data row keyed by the header row;
`row.get(key, default)` yields the default when the key is absent.  A cell
value is a `String`; an absent key is `none`. -/

/-- A row of the categories sheet (columns `c1_name, c2_name, is_active`). -/
structure CatSheetRow where
  c1_name : Option String
  c2_name : Option String
  is_active : Option String
  deriving Repr, DecidableEq

/-- A row of the expenses sheet (columns `date, amount, c1_name, c2_name,
payment_mode, notes, person, need_vs_want, created_at, deleted`); the
hydrator never reads the `created_at` column, so it is not carried. -/
structure ExpSheetRow where
  date : Option String
  amount : Option String
  c1_name : Option String
  c2_name : Option String
  payment_mode : Option String
  notes : Option String
  person : Option String
  need_vs_want : Option String
  deleted : Option String
  deriving Repr, DecidableEq

/-- The `c1_name` cell of a category-sheet row, with the `row.get` default
(`row.get('c1_name', '')`, line 62). -/
def rowCat1n (row : CatSheetRow) : String := row.c1_name.getD ""

/-- The `c2_name` cell of a category-sheet row, with the `row.get` default
(line 63). -/
def rowCat2n (row : CatSheetRow) : String := row.c2_name.getD ""

/-- The parsed `is_active` cell of a category-sheet row (lines 65-66). -/
def rowCatActive (row : CatSheetRow) : Bool := parseSheetBool (row.is_active.getD "TRUE")

/-- The `c1_name` cell of an expense-sheet row, with the `row.get` default
(line 117). -/
def rowExp1n (row : ExpSheetRow) : String := row.c1_name.getD ""

/-- The `c2_name` cell of an expense-sheet row, with the `row.get` default
(line 118). -/
def rowExp2n (row : ExpSheetRow) : String := row.c2_name.getD ""

/-- The `"{c1_name}/{c2_name}"` key an expense-sheet row is resolved by
(line 124). -/
def rowExpKey (row : ExpSheetRow) : String := rowExp1n row ++ "/" ++ rowExp2n row

/-! ## Association-list helpers (model of Python `dict`)

Python dicts preserve insertion order; assigning to an existing key keeps
its position, assigning a fresh key appends. -/

/-- First binding of `k` (keys are unique by construction, so this is the
dict lookup). -/
def alookup {α : Type} : List (String × α) → String → Option α
  | [], _ => none
  | (k2, v) :: tl, k => if k2 == k then some v else alookup tl k

/-- Model of `d[k] = v`: replace in place, or append a fresh key. -/
def aset {α : Type} : List (String × α) → String → α → List (String × α)
  | [], k, v => [(k, v)]
  | (k2, v2) :: tl, k, v =>
    if k2 == k then (k2, v) :: tl else (k2, v2) :: aset tl k v

/-- In-place update of the `i`-th element of a list. -/
def listModify {α : Type} : List α → ℕ → (α → α) → List α
  | [], _, _ => []
  | x :: tl, 0, f => f x :: tl
  | x :: tl, n + 1, f => x :: listModify tl n f

/-! ## Cache Rebuilder (`backend/hydration.py`, `hydrate_user_data`) -/

/-- The cleanup step of `hydrate_user_data` (lines 42-45): delete this
user's `Category1`, `Category2` and `Expense` rows and commit.  The
`users` table is untouched. -/
def clearUser (db : DB) (uid : String) : DB :=
  { db with
    category1 := db.category1.filter (fun r => r.user_id != uid)
    category2 := db.category2.filter (fun r => r.user_id != uid)
    expenses := db.expenses.filter (fun r => r.user_id != uid) }

/-- One iteration of the categories loop of `hydrate_user_data`
(lines 61-92): parse the row, skip it when either name is blank, mint a
new `Category1` (always `active=true`) on the first occurrence of a
`c1_name` and record it in `c1_map`, then insert a `Category2` carrying
the mapped parent id and the denormalized parent name. -/
def catStep (now uid : String) (st : DB × List (String × ℕ)) (row : CatSheetRow) :
    DB × List (String × ℕ) :=
  if rowCat1n row = "" ∨ rowCat2n row = "" then st
  else
    let next : DB × List (String × ℕ) × ℕ :=
      match alookup st.2 (rowCat1n row) with
      | some i => (st.1, st.2, i)
      | none =>
        let i := st.1.nextC1Id
        ({ st.1 with
            category1 := st.1.category1 ++ [⟨i, uid, rowCat1n row, true, now⟩]
            nextC1Id := i + 1 },
          st.2 ++ [(rowCat1n row, i)], i)
    ({ next.1 with
        category2 := next.1.category2 ++
          [⟨next.1.nextC2Id, uid, rowCat2n row, next.2.2, rowCat1n row, rowCatActive row, now⟩]
        nextC2Id := next.1.nextC2Id + 1 },
      next.2.1)

/-- The categories step of `hydrate_user_data` (lines 58-94): fold the
category-sheet rows with an initially empty `c1_map`, then commit. -/
def catPhase (now uid : String) (db : DB) (rows : List CatSheetRow) : DB :=
  (rows.foldl (catStep now uid) (db, [])).1

/-- `c1_lookup` of `hydrate_user_data` (lines 106-110): name → row, built
from this user's `Category1` rows (dict semantics: a later row with the
same name overrides an earlier one). -/
def buildC1Lookup (db : DB) (uid : String) : List (String × Category1Row) :=
  (db.userC1 uid).foldl (fun m c => aset m c.name c) []

/-- `c2_lookup` of `hydrate_user_data` (lines 107-113):
`"{c1_name}/{name}"` → row, over this user's `Category2` rows. -/
def buildC2Lookup (db : DB) (uid : String) : List (String × Category2Row) :=
  (db.userC2 uid).foldl (fun m c => aset m (c.c1_name ++ "/" ++ c.name) c) []

/-- Date parsing of the expenses loop (lines 130-135): ISO-8601 with a
trailing `Z` accepted as UTC offset, falling back to the current time on
any parse failure. -/
def expenseDate (now : String) (row : ExpSheetRow) : String :=
  match isoParse (replaceZ (row.date.getD "")) with
  | some t => t
  | none => now

/-- Amount coercion of the expenses loop (line 144),
`float(row.get('amount', 0))`: a missing key coerces to `0`; a present but
unparseable value raises `ValueError` (modelled as `none`), which the
per-row handler turns into a skip. -/
def expenseAmount (row : ExpSheetRow) : Option ℚ :=
  match row.amount with
  | none => some 0
  | some s => parseFloat s

/-- One iteration of the expenses loop of `hydrate_user_data`
(lines 115-159): skip on a blank category name; skip with a warning when
either lookup fails to resolve; skip (logging an error) when the amount
raises; otherwise insert the `Expense` row with denormalized names and
parsed fields. The second component of the state accumulates the
`Category not found` warnings. -/
def expStep (now uid : String) (lk1 : List (String × Category1Row))
    (lk2 : List (String × Category2Row))
    (st : DB × List (String × String)) (row : ExpSheetRow) :
    DB × List (String × String) :=
  if rowExp1n row = "" ∨ rowExp2n row = "" then st
  else
    match alookup lk1 (rowExp1n row), alookup lk2 (rowExpKey row) with
    | some c1, some c2 =>
      match expenseAmount row with
      | some amt =>
        ({ st.1 with
            expenses := st.1.expenses ++
              [{ id := st.1.nextExpId
                 user_id := uid
                 date := expenseDate now row
                 amount := amt
                 c1_id := c1.id
                 c2_id := c2.id
                 c1_name := rowExp1n row
                 c2_name := rowExp2n row
                 payment_mode := row.payment_mode.getD "Cash"
                 notes := row.notes
                 person := row.person
                 need_vs_want := row.need_vs_want
                 deleted := parseSheetBool (row.deleted.getD "FALSE")
                 created_at := now
                 updated_at := now }]
            nextExpId := st.1.nextExpId + 1 }, st.2)
      | none => st
    | _, _ => (st.1, st.2 ++ [(rowExp1n row, rowExp2n row)])

/-- The expenses step of `hydrate_user_data` (lines 101-162): build both
lookups from the current cache contents, then fold the expense-sheet
rows and commit. -/
def expPhase (now uid : String) (db : DB) (rows : List ExpSheetRow) :
    DB × List (String × String) :=
  rows.foldl (expStep now uid (buildC1Lookup db uid) (buildC2Lookup db uid)) (db, [])

/-- Events of one hydration call, in program order; the two `read` events
are the remote calls it issues. -/
inductive HydEvent where
  | clearCommitted : HydEvent
  | readCategories (sheetId : String) : HydEvent
  | readExpenses (sheetId : String) : HydEvent
  deriving Repr, DecidableEq

/-- Result of a hydration call: final database, events in order, and the
`Category not found` warnings of the expenses step. -/
structure HydrationResult where
  db : DB
  events : List HydEvent
  warnings : List (String × String)
  deriving Repr, DecidableEq

/-- Shallow embedding of `hydrate_user_data` (`backend/hydration.py`,
lines 15-168).  The two remote reads are passed in as `Except` values
(the remote service is an external collaborator): `.error` means
`load_categories` / `load_expenses` raised, in which case that step's
`rollback` fires — which restores nothing, since the cleanup was already
committed and each step commits before the next read.  A missing user
(lines 23-26) and the `"local"` categories-sheet sentinel (lines 31-34)
return before the cleanup with no remote call. -/
def hydrate_user_data (now : String) (db : DB) (user_id : String)
    (catRead : Except Unit (List CatSheetRow))
    (expRead : Except Unit (List ExpSheetRow)) : HydrationResult :=
  match db.findUser user_id with
  | none => ⟨db, [], []⟩
  | some user =>
    if user.categories_sheet_id = "local" then ⟨db, [], []⟩
    else
      let db1 := clearUser db user_id
      let db2 := match catRead with
        | .ok rows => catPhase now user_id db1 rows
        | .error _ => db1
      let r3 := match expRead with
        | .ok rows => expPhase now user_id db2 rows
        | .error _ => (db2, [])
      ⟨r3.1,
        [.clearCommitted, .readCategories user.categories_sheet_id,
          .readExpenses user.expenses_sheet_id],
        r3.2⟩

/-! ## Write-Propagator: `mark_expense_deleted`
(`backend/google_sheets_service.py`, lines 653-688) -/

/-- Cell access `row[i]` (only used behind a `len(row) >= 10` guard). -/
def cellAt (row : List String) (i : ℕ) : String := row.getD i ""

/-- The absolute-tolerance comparison `abs(x - a) < 0.01` of line 672,
computed by integer cross-multiplication so it evaluates in the kernel;
`ratAbsLtHundredth_iff` below proves it equal to `|q - a| < 1/100`. -/
def ratAbsLtHundredth (q a : ℚ) : Bool :=
  decide ((100 : ℤ) * ((q.num * (a.den : ℤ) - a.num * (q.den : ℤ)).natAbs : ℤ) <
    (q.den : ℤ) * (a.den : ℤ))

/-- The four-predicate row match of `mark_expense_deleted`
(lines 669-676), guarded by `len(row) >= 10` (line 662): date portions
before `T` equal; amount equal as exact string or as parsed value within
absolute tolerance `0.01`; subcategory column equal; creation-timestamp
column starts with the target timestamp truncated at its first `.`.
The target amount is the Python float argument, carried as its `str()`
form `amountStr` together with its numeric value `amountVal`. -/
def rowMatches (expense_date amountStr : String) (amountVal : ℚ)
    (c2_name created_at : String) (row : List String) : Bool :=
  decide (row.length ≥ 10) &&
  (beforeChar 'T' (cellAt row 0) == beforeChar 'T' expense_date) &&
  ((cellAt row 1 == amountStr) ||
    (match parseFloat (cellAt row 1) with
      | some q => ratAbsLtHundredth q amountVal
      | none => false)) &&
  (cellAt row 3 == c2_name) &&
  strStarts (cellAt row 8) (beforeChar '.' created_at)

/-- A row on which the scan of `mark_expense_deleted` raises: it has at
least 10 columns and an amount cell that is not string-equal to the
target yet fails `float()` (line 672 evaluates `float(row_amount)` for
every such row, whether or not the other predicates hold); the exception
aborts the whole scan with no change (lines 684-688). -/
def rowAborts (amountStr : String) (row : List String) : Bool :=
  decide (row.length ≥ 10) && !(cellAt row 1 == amountStr) &&
  (parseFloat (cellAt row 1)).isNone

/-- Outcome of the scan: first matching 0-based index into `all_values`,
an exception, or no match. -/
inductive ScanOutcome where
  | found (i : ℕ) : ScanOutcome
  | aborted : ScanOutcome
  | notFound : ScanOutcome
  deriving Repr, DecidableEq

/-- The scan of `mark_expense_deleted` over the post-header rows. -/
def markScan (expense_date amountStr : String) (amountVal : ℚ)
    (c2_name created_at : String) : List (List String) → ℕ → ScanOutcome
  | [], _ => .notFound
  | r :: rs, i =>
    if rowAborts amountStr r then .aborted
    else if rowMatches expense_date amountStr amountVal c2_name created_at r then .found i
    else markScan expense_date amountStr amountVal c2_name created_at rs (i + 1)

/-- Writing `"TRUE"` into the soft-delete column J (line 678). -/
def setDeletedCell (row : List String) : List String := row.set 9 "TRUE"

/-- Shallow embedding of `mark_expense_deleted`
(`backend/google_sheets_service.py`, lines 653-688): scan the rows after
the header; on the first row matching all four predicates, set its
soft-delete column to `"TRUE"` and return `True`; otherwise (no match, or
an exception while comparing amounts) return `False` with the sheet
unchanged. -/
def mark_expense_deleted (expense_date amountStr : String) (amountVal : ℚ)
    (c2_name created_at : String) (all_values : List (List String)) :
    Bool × List (List String) :=
  match markScan expense_date amountStr amountVal c2_name created_at (all_values.drop 1) 1 with
  | .found i => (true, listModify all_values i setDeletedCell)
  | _ => (false, all_values)

/-! ## Propagation triggered by the expense routes (`backend/main.py`) -/

/-- A remote spreadsheet mutation attempted by the propagator. -/
inductive RemoteCall where
  | appendExpense (sheetId : String) : RemoteCall
  | markDeleted (sheetId : String) : RemoteCall
  deriving Repr, DecidableEq

/-- Remote calls issued by the sync section of `create_expense`
(`backend/main.py`, lines 496-515): whenever the user row exists,
`google_sheets_service.append_expense(user.expenses_sheet_id, ...)` is
called — there is no check of the `"local"` sentinel on this path; the
resulting failure is caught and logged. -/
def create_expense_sync (user : Option UserRow) : List RemoteCall :=
  match user with
  | some u => [.appendExpense u.expenses_sheet_id]
  | none => []

/-- Remote calls issued by the sync section of `delete_expense`
(`backend/main.py`, lines 556-570): `mark_expense_deleted` is called only
when the user exists and `user.expenses_sheet_id != "local"`. -/
def delete_expense_sync (user : Option UserRow) : List RemoteCall :=
  match user with
  | some u =>
    if u.expenses_sheet_id ≠ "local" then [.markDeleted u.expenses_sheet_id] else []
  | none => []

/-! ## Derived predicates and projections used to state the claims -/

/-- A category-sheet row the hydrator keeps: both names non-blank. -/
def catRowKept (row : CatSheetRow) : Bool :=
  !(decide (rowCat1n row = "" ∨ rowCat2n row = ""))

/-- The `Category1` names the categories step mints, in order: first
occurrences of kept rows' `c1_name`s that are not already bound in the
running `c1_map` (whose key list is the second argument). -/
def newNames : List CatSheetRow → List String → List String
  | [], _ => []
  | row :: tl, ks =>
    if catRowKept row then
      if rowCat1n row ∈ ks then newNames tl ks
      else rowCat1n row :: newNames tl (ks ++ [rowCat1n row])
    else newNames tl ks

/-- An expense-sheet row the hydrator inserts: both names non-blank, both
category lookups resolve, and the amount does not raise. -/
def expRowKept (lk1 : List (String × Category1Row)) (lk2 : List (String × Category2Row))
    (row : ExpSheetRow) : Bool :=
  !(decide (rowExp1n row = "" ∨ rowExp2n row = "")) &&
  (alookup lk1 (rowExp1n row)).isSome &&
  (alookup lk2 (rowExpKey row)).isSome &&
  (expenseAmount row).isSome

/-- An expense-sheet row that triggers the `Category not found` warning:
both names non-blank but at least one lookup unresolved. -/
def expRowWarn (lk1 : List (String × Category1Row)) (lk2 : List (String × Category2Row))
    (row : ExpSheetRow) : Bool :=
  !(decide (rowExp1n row = "" ∨ rowExp2n row = "")) &&
  (!(alookup lk1 (rowExp1n row)).isSome || !(alookup lk2 (rowExpKey row)).isSome)

/-- The `Expense` row inserted for a kept expense-sheet row, given its
fresh primary key `i` (the lookups are `some` on kept rows, so the
`getD` defaults are never exercised). -/
def mkExpenseRow (now uid : String) (lk1 : List (String × Category1Row))
    (lk2 : List (String × Category2Row)) (i : ℕ) (row : ExpSheetRow) : ExpenseRow :=
  { id := i
    user_id := uid
    date := expenseDate now row
    amount := (expenseAmount row).getD 0
    c1_id := ((alookup lk1 (rowExp1n row)).map Category1Row.id).getD 0
    c2_id := ((alookup lk2 (rowExpKey row)).map Category2Row.id).getD 0
    c1_name := rowExp1n row
    c2_name := rowExp2n row
    payment_mode := row.payment_mode.getD "Cash"
    notes := row.notes
    person := row.person
    need_vs_want := row.need_vs_want
    deleted := parseSheetBool (row.deleted.getD "FALSE")
    created_at := now
    updated_at := now }

/-- The list of `Expense` rows the expenses step appends, with primary
keys counting up from `i`. -/
def keptExpenses (now uid : String) (lk1 : List (String × Category1Row))
    (lk2 : List (String × Category2Row)) : List ExpSheetRow → ℕ → List ExpenseRow
  | [], _ => []
  | row :: tl, i =>
    if expRowKept lk1 lk2 row then
      mkExpenseRow now uid lk1 lk2 i row :: keptExpenses now uid lk1 lk2 tl (i + 1)
    else keptExpenses now uid lk1 lk2 tl i

/-- Identity-free view of a `Category1` row: name and active flag. -/
def c1Proj (r : Category1Row) : String × Bool := (r.name, r.active)

/-- Identity-free view of a `Category2` row: denormalized parent name,
own name, active flag. -/
def c2Proj (r : Category2Row) : String × String × Bool := (r.c1_name, r.name, r.active)

/-- Identity-free view of an `Expense` row: every column except the
generated primary/foreign keys and the `created_at`/`updated_at`
timestamps. -/
structure ExpView where
  user_id : String
  date : String
  amount : ℚ
  c1_name : String
  c2_name : String
  payment_mode : String
  notes : Option String
  person : Option String
  need_vs_want : Option String
  deleted : Bool
  deriving Repr, DecidableEq

/-- Project an `Expense` cache row to its identity-free view. -/
def expProj (r : ExpenseRow) : ExpView :=
  ⟨r.user_id, r.date, r.amount, r.c1_name, r.c2_name, r.payment_mode,
    r.notes, r.person, r.need_vs_want, r.deleted⟩

/-- The identity-free view of the `Expense` row a kept sheet row produces. -/
def expOutProj (now uid : String) (row : ExpSheetRow) : ExpView :=
  ⟨uid, expenseDate now row, (expenseAmount row).getD 0, rowExp1n row, rowExp2n row,
    row.payment_mode.getD "Cash", row.notes, row.person, row.need_vs_want,
    parseSheetBool (row.deleted.getD "FALSE")⟩

/-- Identity-free projection of a user's `category1` cache rows. -/
def userC1Proj (db : DB) (uid : String) : List (String × Bool) :=
  (db.userC1 uid).map c1Proj

/-- Identity-free projection of a user's `category2` cache rows. -/
def userC2Proj (db : DB) (uid : String) : List (String × String × Bool) :=
  (db.userC2 uid).map c2Proj

/-- Identity-free projection of a user's `expenses` cache rows. -/
def userExpProj (db : DB) (uid : String) : List ExpView :=
  (db.userExpenses uid).map expProj

/-! ## Concrete fixtures used by the evaluation theorems -/

/-- A user whose sheets are real (non-sentinel). -/
def demoUser : UserRow := ⟨"u1", "u1@example.com", "User One", "CATS", "EXPS"⟩

/-- A user in cache-only mode: expenses sheet id is the `"local"` sentinel. -/
def localUser : UserRow := ⟨"u2", "u2@example.com", "User Two", "local", "local"⟩

/-- A cache holding only `demoUser`. -/
def demoDB : DB := { DB.empty with users := [demoUser] }

/-- The categories sheet of the hierarchy-reconstruction example. -/
def demoCatRows : List CatSheetRow :=
  [⟨some "Food", some "Snacks", some "TRUE"⟩,
   ⟨some "Food", some "Groceries", some "FALSE"⟩]

/-- The header row of an expenses sheet. -/
def expensesHeader : List String :=
  ["date", "amount", "c1_name", "c2_name", "payment_mode", "notes", "person",
   "need_vs_want", "created_at", "deleted"]

/-- First sheet row of the soft-delete example: created at `.111111`. -/
def sheetRowEarly : List String :=
  ["2024-01-01T10:00", "100", "Food", "Snacks", "Cash", "", "", "",
   "2024-01-01T10:00:00.111111", "FALSE"]

/-- Second sheet row of the soft-delete example: same date, amount and
subcategory, created at `.222222`. -/
def sheetRowLate : List String :=
  ["2024-01-01T10:00", "100", "Food", "Snacks", "Cash", "", "", "",
   "2024-01-01T10:00:00.222222", "FALSE"]

/-- An expense-sheet row resolving to `Food/Snacks` with a negative
amount cell. -/
def negAmountRow : ExpSheetRow :=
  ⟨some "2024-01-02", some "-5", some "Food", some "Snacks", some "Cash",
    none, none, none, some "FALSE"⟩

/-- An expense-sheet row resolving to `Food/Snacks` whose amount cell is
the empty string (present but unparseable: `float('')` raises). -/
def emptyAmountRow : ExpSheetRow :=
  ⟨some "2024-01-02", some "", some "Food", some "Snacks", some "Cash",
    none, none, none, some "FALSE"⟩

/-- An expense-sheet row resolving to `Food/Snacks` whose date cell does
not parse as ISO-8601. -/
def badDateRow : ExpSheetRow :=
  ⟨some "garbage", some "10", some "Food", some "Snacks", some "Cash",
    none, none, none, some "FALSE"⟩

/-- An expense-sheet row referencing `Food/Ghost`, a subcategory the
categories sheet does not define. -/
def ghostRow : ExpSheetRow :=
  ⟨some "2024-01-02", some "10", some "Food", some "Ghost", some "Cash",
    none, none, none, some "FALSE"⟩

/-- A well-formed expense-sheet row resolving to `Food/Snacks`. -/
def validExpRow : ExpSheetRow :=
  ⟨some "2024-01-03", some "20", some "Food", some "Snacks", some "UPI",
    some "n", none, none, some "FALSE"⟩

/-- The `"{c1_name}/{c2_name}"` keys of the kept categories rows, in
order: exactly the `c2_lookup` keys hydration rebuilds from that sheet. -/
def keptKeys (catRows : List CatSheetRow) : List String :=
  (catRows.filter catRowKept).map (fun row => rowCat1n row ++ "/" ++ rowCat2n row)

/-- `expRowKept` with the two lookups abstracted to their key lists: this
form depends only on sheet contents, not on ids or timestamps
(`expRowKept_eq_names` below). -/
def expRowKeptNames (c1names c2keys : List String) (row : ExpSheetRow) : Bool :=
  !(decide (rowExp1n row = "" ∨ rowExp2n row = "")) &&
  decide (rowExp1n row ∈ c1names) &&
  decide (rowExpKey row ∈ c2keys) &&
  (expenseAmount row).isSome

/-- A pre-seeded cache with categories `Food/Snacks` for user `u1`. -/
def seededDB : DB :=
  { DB.empty with
      category1 := [⟨0, "u1", "Food", true, "T0"⟩]
      category2 := [⟨0, "u1", "Snacks", 0, "Food", true, "T0"⟩]
      nextC1Id := 1
      nextC2Id := 1 }

/-- An expense-sheet row resolving to `Food/Snacks` whose amount KEY is
absent (the `row.get('amount', 0)` default path). -/
def noAmountRow : ExpSheetRow :=
  ⟨some "2024-01-02", none, some "Food", some "Snacks", some "Cash",
    none, none, none, some "FALSE"⟩

/-! ## Helper lemmas -/

/-- The cross-multiplied tolerance test agrees with the source's
`abs(float(row_amount) - float(amount)) < 0.01`. -/
theorem ratAbsLtHundredth_iff (q a : ℚ) :
    ratAbsLtHundredth q a = true ↔ |q - a| < 1 / 100 := by
  unfold ratAbsLtHundredth
  rw [decide_eq_true_iff]
  have hqd : ((q.den : ℚ)) ≠ 0 := by exact_mod_cast q.den_nz
  have had : ((a.den : ℚ)) ≠ 0 := by exact_mod_cast a.den_nz
  have hsub : q - a = ((q.num * (a.den : ℤ) - a.num * (q.den : ℤ) : ℤ) : ℚ) /
      (((q.den : ℤ) * (a.den : ℤ) : ℤ) : ℚ) := by
    conv_lhs => rw [← Rat.num_div_den q, ← Rat.num_div_den a]
    rw [div_sub_div _ _ hqd had]
    push_cast
    ring_nf
  have hD : (0:ℚ) < (((q.den : ℤ) * (a.den : ℤ) : ℤ) : ℚ) := by
    push_cast
    positivity
  rw [hsub, abs_div, abs_of_pos hD, div_lt_div_iff₀ hD (by norm_num : (0:ℚ) < 100)]
  rw [one_mul, ← Int.cast_abs, Int.abs_eq_natAbs]
  constructor
  · intro h
    have h2 : ((q.num * (a.den : ℤ) - a.num * (q.den : ℤ)).natAbs : ℤ) * 100 <
        (q.den : ℤ) * (a.den : ℤ) := by linarith
    exact_mod_cast h2
  · intro h
    have h2 : ((q.num * (a.den : ℤ) - a.num * (q.den : ℤ)).natAbs : ℤ) * 100 <
        (q.den : ℤ) * (a.den : ℤ) := by exact_mod_cast h
    linarith

theorem alookup_nil {α : Type} (k : String) : alookup ([] : List (String × α)) k = none := rfl

theorem alookup_cons {α : Type} (p : String × α) (tl : List (String × α)) (k : String) :
    alookup (p :: tl) k = if p.1 == k then some p.2 else alookup tl k := rfl

/-- Looking up in a concatenation when the left part binds the key. -/
theorem alookup_append_some {α : Type} {m₁ : List (String × α)} {k : String} {v : α}
    (m₂ : List (String × α)) (h : alookup m₁ k = some v) :
    alookup (m₁ ++ m₂) k = some v := by
  induction m₁ with
  | nil => simp [alookup] at h
  | cons p tl ih =>
    rw [List.cons_append]
    by_cases hpk : p.1 == k
    · simpa [alookup, hpk] using h
    · simp only [alookup_cons, hpk, if_false, Bool.false_eq_true] at h ⊢
      exact ih h

/-- Looking up in a concatenation when the left part does not bind the key. -/
theorem alookup_append_none {α : Type} {m₁ : List (String × α)} {k : String}
    (m₂ : List (String × α)) (h : alookup m₁ k = none) :
    alookup (m₁ ++ m₂) k = alookup m₂ k := by
  induction m₁ with
  | nil => simp
  | cons p tl ih =>
    rw [List.cons_append]
    by_cases hpk : p.1 == k
    · simp [alookup, hpk] at h
    · simp only [alookup_cons, hpk, if_false, Bool.false_eq_true] at h ⊢
      exact ih h

/-- A key resolves exactly when it occurs among the keys. -/
theorem alookup_isSome_iff {α : Type} (m : List (String × α)) (k : String) :
    (alookup m k).isSome ↔ k ∈ m.map Prod.fst := by
  induction m with
  | nil => simp [alookup]
  | cons p tl ih =>
    by_cases hpk : p.1 == k
    · have hk : p.1 = k := by simpa using hpk
      simp [alookup, hpk, hk]
    · have hk : ¬(k = p.1) := by
        intro hh
        exact hpk (by simp [hh])
      simp [alookup, hpk, hk, ih]

/-- A key fails to resolve exactly when it is absent from the keys. -/
theorem alookup_none_iff {α : Type} (m : List (String × α)) (k : String) :
    alookup m k = none ↔ k ∉ m.map Prod.fst := by
  rw [← alookup_isSome_iff, Option.isSome_iff_ne_none]
  simp

/-- A successful lookup comes from a binding in the list. -/
theorem alookup_mem {α : Type} {m : List (String × α)} {k : String} {v : α}
    (h : alookup m k = some v) : (k, v) ∈ m := by
  induction m with
  | nil => simp [alookup] at h
  | cons p tl ih =>
    rw [alookup_cons] at h
    by_cases hpk : p.1 == k
    · rw [if_pos hpk] at h
      have hk : p.1 = k := by simpa using hpk
      have hv : p.2 = v := by simpa using h
      have hp : p = (k, v) := by
        obtain ⟨a, b⟩ := p
        simp_all
      rw [← hp]
      exact List.mem_cons_self p tl
    · rw [if_neg hpk] at h
      exact List.mem_cons_of_mem _ (ih h)

/-- Keys resolvable after a dict assignment. -/
theorem alookup_aset_isSome {α : Type} (m : List (String × α)) (k k2 : String) (v : α) :
    (alookup (aset m k v) k2).isSome ↔ k2 = k ∨ (alookup m k2).isSome := by
  induction m with
  | nil =>
    by_cases h : k = k2
    · simp [aset, alookup, h]
    · have h2 : ¬(k == k2) := by simpa using h
      simp only [aset, alookup_cons, alookup_nil]
      rw [if_neg h2]
      simp only [alookup_nil, Option.isSome_none]
      constructor
      · simp
      · rintro (h3 | h3)
        · exact absurd h3.symm h
        · simp at h3
  | cons p tl ih =>
    by_cases hpk : p.1 == k
    · simp only [aset, hpk, if_true]
      rw [alookup_cons, alookup_cons]
      by_cases hp2 : p.1 == k2
      · simp [hp2]
      · rw [if_neg hp2, if_neg hp2]
        have hk : p.1 = k := by simpa using hpk
        have hne : ¬(k2 = k) := by
          intro hh
          exact absurd (by simp [hk, hh] : p.1 == k2) hp2
        simp [hne]
    · simp only [aset, hpk, if_false, Bool.false_eq_true]
      rw [alookup_cons, alookup_cons]
      by_cases hp2 : p.1 == k2
      · simp [hp2]
      · rw [if_neg hp2, if_neg hp2]
        exact ih

/-- Keys resolvable in a dict built by folding assignments. -/
theorem alookup_foldl_aset_isSome {α : Type} (key : α → String) (l : List α)
    (m0 : List (String × α)) (n : String) :
    (alookup (l.foldl (fun m c => aset m (key c) c) m0) n).isSome
      ↔ n ∈ l.map key ∨ (alookup m0 n).isSome := by
  induction l generalizing m0 with
  | nil => simp
  | cons c tl ih =>
    simp only [List.foldl_cons, List.map_cons, List.mem_cons]
    rw [ih, alookup_aset_isSome]
    tauto

/-- `c1_lookup` resolves a name exactly when the user has a `Category1`
row with that name. -/
theorem buildC1Lookup_isSome (db : DB) (uid : String) (n : String) :
    (alookup (buildC1Lookup db uid) n).isSome
      ↔ n ∈ (db.userC1 uid).map Category1Row.name := by
  unfold buildC1Lookup
  rw [alookup_foldl_aset_isSome]
  simp [alookup]

/-- `c2_lookup` resolves a key exactly when the user has a `Category2`
row with that `"{c1_name}/{name}"` key. -/
theorem buildC2Lookup_isSome (db : DB) (uid : String) (n : String) :
    (alookup (buildC2Lookup db uid) n).isSome
      ↔ n ∈ (db.userC2 uid).map (fun c => c.c1_name ++ "/" ++ c.name) := by
  unfold buildC2Lookup
  rw [alookup_foldl_aset_isSome]
  simp [alookup]

/-- Exact characterization of the expenses loop: the fold leaves every
other table and counter untouched, appends exactly the kept rows as
`Expense` rows with primary keys counting up from `nextExpId`, and emits
one warning per unresolved row, in order. -/
theorem expFold_spec (now uid : String) (lk1 : List (String × Category1Row))
    (lk2 : List (String × Category2Row)) :
    ∀ (rows : List ExpSheetRow) (db : DB) (w : List (String × String)),
    (rows.foldl (expStep now uid lk1 lk2) (db, w)).1.users = db.users ∧
    (rows.foldl (expStep now uid lk1 lk2) (db, w)).1.category1 = db.category1 ∧
    (rows.foldl (expStep now uid lk1 lk2) (db, w)).1.category2 = db.category2 ∧
    (rows.foldl (expStep now uid lk1 lk2) (db, w)).1.nextC1Id = db.nextC1Id ∧
    (rows.foldl (expStep now uid lk1 lk2) (db, w)).1.nextC2Id = db.nextC2Id ∧
    (rows.foldl (expStep now uid lk1 lk2) (db, w)).1.expenses
      = db.expenses ++ keptExpenses now uid lk1 lk2 rows db.nextExpId ∧
    (rows.foldl (expStep now uid lk1 lk2) (db, w)).2
      = w ++ (rows.filter (expRowWarn lk1 lk2)).map (fun row => (rowExp1n row, rowExp2n row)) := by
  intro rows
  induction rows with
  | nil => intro db w; simp [keptExpenses]
  | cons row tl ih =>
    intro db w
    rw [List.foldl_cons]
    by_cases hb : (rowExp1n row = "" ∨ rowExp2n row = "")
    · have hstep : expStep now uid lk1 lk2 (db, w) row = (db, w) := by
        simp [expStep, hb]
      have hkept : expRowKept lk1 lk2 row = false := by
        simp [expRowKept, hb]
      have hwarn : expRowWarn lk1 lk2 row = false := by
        simp [expRowWarn, hb]
      rw [hstep]
      simpa [keptExpenses, hkept, List.filter_cons, hwarn] using ih db w
    · cases h1 : alookup lk1 (rowExp1n row) with
      | none =>
        have hstep : expStep now uid lk1 lk2 (db, w) row
            = (db, w ++ [(rowExp1n row, rowExp2n row)]) := by
          simp only [expStep, if_neg hb, h1]
        have hkept : expRowKept lk1 lk2 row = false := by
          simp [expRowKept, h1]
        have hwarn : expRowWarn lk1 lk2 row = true := by
          simp [expRowWarn, hb, h1]
        rw [hstep]
        have := ih db (w ++ [(rowExp1n row, rowExp2n row)])
        simpa [keptExpenses, hkept, List.filter_cons, hwarn] using this
      | some c1 =>
        cases h2 : alookup lk2 (rowExpKey row) with
        | none =>
          have hstep : expStep now uid lk1 lk2 (db, w) row
              = (db, w ++ [(rowExp1n row, rowExp2n row)]) := by
            simp only [expStep, if_neg hb, h1, h2]
          have hkept : expRowKept lk1 lk2 row = false := by
            simp [expRowKept, h2]
          have hwarn : expRowWarn lk1 lk2 row = true := by
            simp [expRowWarn, hb, h2]
          rw [hstep]
          have := ih db (w ++ [(rowExp1n row, rowExp2n row)])
          simpa [keptExpenses, hkept, List.filter_cons, hwarn] using this
        | some c2 =>
          cases ha : expenseAmount row with
          | none =>
            have hstep : expStep now uid lk1 lk2 (db, w) row = (db, w) := by
              simp only [expStep, if_neg hb, h1, h2, ha]
            have hkept : expRowKept lk1 lk2 row = false := by
              simp [expRowKept, ha]
            have hwarn : expRowWarn lk1 lk2 row = false := by
              simp [expRowWarn, h1, h2]
            rw [hstep]
            simpa [keptExpenses, hkept, List.filter_cons, hwarn] using ih db w
          | some amt =>
            have hstep : expStep now uid lk1 lk2 (db, w) row
                = ({ db with
                      expenses := db.expenses ++ [mkExpenseRow now uid lk1 lk2 db.nextExpId row]
                      nextExpId := db.nextExpId + 1 }, w) := by
              simp only [expStep, if_neg hb, h1, h2, ha]
              simp [mkExpenseRow, h1, h2, ha]
            have hkept : expRowKept lk1 lk2 row = true := by
              simp [expRowKept, hb, h1, h2, ha]
            have hwarn : expRowWarn lk1 lk2 row = false := by
              simp [expRowWarn, h1, h2]
            rw [hstep]
            have := ih ({ db with
                      expenses := db.expenses ++ [mkExpenseRow now uid lk1 lk2 db.nextExpId row]
                      nextExpId := db.nextExpId + 1 }) w
            simpa [keptExpenses, hkept, List.filter_cons, hwarn] using this

/-- Projection characterization of the categories loop: the fold leaves
`users`/`expenses` untouched, appends one always-active `Category1` per
new name (first occurrences not already bound in `c1_map`), appends one
`Category2` per kept row carrying the denormalized parent name and parsed
flag, and extends the map keys by exactly the new names. -/
theorem catFold_proj (now uid : String) :
    ∀ (rows : List CatSheetRow) (db : DB) (m : List (String × ℕ)),
    (rows.foldl (catStep now uid) (db, m)).1.users = db.users ∧
    (rows.foldl (catStep now uid) (db, m)).1.expenses = db.expenses ∧
    (rows.foldl (catStep now uid) (db, m)).1.nextExpId = db.nextExpId ∧
    ((rows.foldl (catStep now uid) (db, m)).1.userC1 uid).map c1Proj
      = (db.userC1 uid).map c1Proj
        ++ (newNames rows (m.map Prod.fst)).map (fun n => (n, true)) ∧
    ((rows.foldl (catStep now uid) (db, m)).1.userC2 uid).map c2Proj
      = (db.userC2 uid).map c2Proj
        ++ (rows.filter catRowKept).map
            (fun row => (rowCat1n row, rowCat2n row, rowCatActive row)) ∧
    (rows.foldl (catStep now uid) (db, m)).2.map Prod.fst
      = m.map Prod.fst ++ newNames rows (m.map Prod.fst) := by
  intro rows
  induction rows with
  | nil => intro db m; simp [newNames]
  | cons row tl ih =>
    intro db m
    rw [List.foldl_cons]
    by_cases hb : (rowCat1n row = "" ∨ rowCat2n row = "")
    · have hstep : catStep now uid (db, m) row = (db, m) := by
        simp [catStep, hb]
      have hkept : catRowKept row = false := by
        simp [catRowKept, hb]
      rw [hstep]
      simpa [newNames, hkept, List.filter_cons] using ih db m
    · have hkept : catRowKept row = true := by
        simp [catRowKept, hb]
      cases h1 : alookup m (rowCat1n row) with
      | some i =>
        have hmem : rowCat1n row ∈ m.map Prod.fst := by
          rw [← alookup_isSome_iff, h1]
          rfl
        have hstep : catStep now uid (db, m) row
            = ({ db with
                  category2 := db.category2 ++
                    [⟨db.nextC2Id, uid, rowCat2n row, i, rowCat1n row, rowCatActive row, now⟩]
                  nextC2Id := db.nextC2Id + 1 }, m) := by
          simp only [catStep, if_neg hb, h1]
        rw [hstep]
        have := ih ({ db with
                  category2 := db.category2 ++
                    [⟨db.nextC2Id, uid, rowCat2n row, i, rowCat1n row, rowCatActive row, now⟩]
                  nextC2Id := db.nextC2Id + 1 }) m
        simpa [newNames, hkept, hmem, List.filter_cons, DB.userC1, DB.userC2,
          List.filter_append, c2Proj] using this
      | none =>
        have hmem : rowCat1n row ∉ m.map Prod.fst := by
          rw [← alookup_none_iff]
          exact h1
        have hstep : catStep now uid (db, m) row
            = ({ db with
                  category1 := db.category1 ++ [⟨db.nextC1Id, uid, rowCat1n row, true, now⟩]
                  nextC1Id := db.nextC1Id + 1
                  category2 := db.category2 ++
                    [⟨db.nextC2Id, uid, rowCat2n row, db.nextC1Id, rowCat1n row,
                      rowCatActive row, now⟩]
                  nextC2Id := db.nextC2Id + 1 },
                m ++ [(rowCat1n row, db.nextC1Id)]) := by
          simp only [catStep, if_neg hb, h1]
        rw [hstep]
        have := ih ({ db with
                  category1 := db.category1 ++ [⟨db.nextC1Id, uid, rowCat1n row, true, now⟩]
                  nextC1Id := db.nextC1Id + 1
                  category2 := db.category2 ++
                    [⟨db.nextC2Id, uid, rowCat2n row, db.nextC1Id, rowCat1n row,
                      rowCatActive row, now⟩]
                  nextC2Id := db.nextC2Id + 1 }) (m ++ [(rowCat1n row, db.nextC1Id)])
        simpa [newNames, hkept, hmem, List.filter_cons, DB.userC1, DB.userC2,
          List.filter_append, c2Proj, c1Proj] using this

/-- Identity invariant of the categories loop: the running `c1_map` is
exactly the `(name, id)` list of the user's `Category1` rows, its keys
are distinct, its ids are below the fresh counter, and every inserted
`Category2` row's `c1_id` is the id its `c1_name` maps to. -/
theorem catFold_inv (now uid : String) :
    ∀ (rows : List CatSheetRow) (db : DB) (m : List (String × ℕ)),
    (db.userC1 uid).map (fun c => (c.name, c.id)) = m →
    (m.map Prod.fst).Nodup →
    (∀ p ∈ m, p.2 < db.nextC1Id) →
    (∀ c2 ∈ db.userC2 uid, alookup m c2.c1_name = some c2.c1_id) →
    (((rows.foldl (catStep now uid) (db, m)).1.userC1 uid).map (fun c => (c.name, c.id))
        = (rows.foldl (catStep now uid) (db, m)).2) ∧
    ((rows.foldl (catStep now uid) (db, m)).2.map Prod.fst).Nodup ∧
    (∀ p ∈ (rows.foldl (catStep now uid) (db, m)).2,
        p.2 < (rows.foldl (catStep now uid) (db, m)).1.nextC1Id) ∧
    (∀ c2 ∈ (rows.foldl (catStep now uid) (db, m)).1.userC2 uid,
        alookup (rows.foldl (catStep now uid) (db, m)).2 c2.c1_name = some c2.c1_id) := by
  intro rows
  induction rows with
  | nil =>
    intro db m h1 h2 h3 h4
    exact ⟨h1, h2, h3, h4⟩
  | cons row tl ih =>
    intro db m h1 h2 h3 h4
    rw [List.foldl_cons]
    by_cases hb : (rowCat1n row = "" ∨ rowCat2n row = "")
    · have hstep : catStep now uid (db, m) row = (db, m) := by
        simp [catStep, hb]
      rw [hstep]
      exact ih db m h1 h2 h3 h4
    · cases hl : alookup m (rowCat1n row) with
      | some i =>
        have hstep : catStep now uid (db, m) row
            = ({ db with
                  category2 := db.category2 ++
                    [⟨db.nextC2Id, uid, rowCat2n row, i, rowCat1n row, rowCatActive row, now⟩]
                  nextC2Id := db.nextC2Id + 1 }, m) := by
          simp only [catStep, if_neg hb, hl]
        rw [hstep]
        apply ih
        · simpa [DB.userC1] using h1
        · exact h2
        · exact h3
        · intro c2 hc2
          simp only [DB.userC2, List.filter_append] at hc2
          rw [List.mem_append] at hc2
          rcases hc2 with hc2 | hc2
          · exact h4 c2 hc2
          · simp only [List.filter_cons] at hc2
            have : c2 = ⟨db.nextC2Id, uid, rowCat2n row, i, rowCat1n row, rowCatActive row, now⟩ := by
              simp_all
            rw [this]
            exact hl
      | none =>
        have hmem : rowCat1n row ∉ m.map Prod.fst := by
          rw [← alookup_none_iff]
          exact hl
        have hstep : catStep now uid (db, m) row
            = ({ db with
                  category1 := db.category1 ++ [⟨db.nextC1Id, uid, rowCat1n row, true, now⟩]
                  nextC1Id := db.nextC1Id + 1
                  category2 := db.category2 ++
                    [⟨db.nextC2Id, uid, rowCat2n row, db.nextC1Id, rowCat1n row,
                      rowCatActive row, now⟩]
                  nextC2Id := db.nextC2Id + 1 },
                m ++ [(rowCat1n row, db.nextC1Id)]) := by
          simp only [catStep, if_neg hb, hl]
        rw [hstep]
        apply ih
        · simp only [DB.userC1, List.filter_append, List.map_append, List.filter_cons]
          simp [h1.symm, DB.userC1]
        · rw [List.map_append, List.nodup_append]
          refine ⟨h2, by simp, ?_⟩
          intro a ha hb2
          simp only [List.map_cons, List.map_nil, List.mem_singleton] at hb2
          rw [hb2] at ha
          exact hmem ha
        · intro p hp
          rw [List.mem_append] at hp
          rcases hp with hp | hp
          · exact Nat.lt_succ_of_lt (h3 p hp)
          · simp only [List.mem_singleton] at hp
            rw [hp]
            exact Nat.lt_succ_self _
        · intro c2 hc2
          simp only [DB.userC2, List.filter_append] at hc2
          rw [List.mem_append] at hc2
          rcases hc2 with hc2 | hc2
          · exact alookup_append_some _ (h4 c2 hc2)
          · simp only [List.filter_cons] at hc2
            have hc2eq : c2 = ⟨db.nextC2Id, uid, rowCat2n row, db.nextC1Id, rowCat1n row,
                rowCatActive row, now⟩ := by
              simp_all
            rw [hc2eq]
            rw [alookup_append_none _ hl]
            simp [alookup]

theorem clearUser_users (db : DB) (uid : String) : (clearUser db uid).users = db.users := rfl

theorem userC1_clearUser (db : DB) (uid : String) : (clearUser db uid).userC1 uid = [] := by
  simp only [clearUser, DB.userC1]
  rw [List.filter_eq_nil_iff]
  intro a ha
  rw [List.mem_filter] at ha
  simp_all

theorem userC2_clearUser (db : DB) (uid : String) : (clearUser db uid).userC2 uid = [] := by
  simp only [clearUser, DB.userC2]
  rw [List.filter_eq_nil_iff]
  intro a ha
  rw [List.mem_filter] at ha
  simp_all

theorem userExpenses_clearUser (db : DB) (uid : String) :
    (clearUser db uid).userExpenses uid = [] := by
  simp only [clearUser, DB.userExpenses]
  rw [List.filter_eq_nil_iff]
  intro a ha
  rw [List.mem_filter] at ha
  simp_all

theorem keptExpenses_map_expProj (now uid : String) (lk1 : List (String × Category1Row))
    (lk2 : List (String × Category2Row)) :
    ∀ (rows : List ExpSheetRow) (i : ℕ),
    (keptExpenses now uid lk1 lk2 rows i).map expProj
      = (rows.filter (expRowKept lk1 lk2)).map (expOutProj now uid) := by
  intro rows
  induction rows with
  | nil => intro i; simp [keptExpenses]
  | cons row tl ih =>
    intro i
    by_cases h : expRowKept lk1 lk2 row
    · simp [keptExpenses, h, List.filter_cons, expProj, mkExpenseRow, expOutProj, ih]
    · simp only [Bool.not_eq_true] at h
      simp [keptExpenses, h, List.filter_cons, ih]

theorem keptExpenses_filter_user (now uid : String) (lk1 : List (String × Category1Row))
    (lk2 : List (String × Category2Row)) :
    ∀ (rows : List ExpSheetRow) (i : ℕ),
    (keptExpenses now uid lk1 lk2 rows i).filter (fun r => r.user_id == uid)
      = keptExpenses now uid lk1 lk2 rows i := by
  intro rows
  induction rows with
  | nil => intro i; simp [keptExpenses]
  | cons row tl ih =>
    intro i
    by_cases h : expRowKept lk1 lk2 row
    · simp [keptExpenses, h, List.filter_cons, mkExpenseRow, ih]
    · simp only [Bool.not_eq_true] at h
      simp [keptExpenses, h, ih]

theorem keptExpenses_eq_nil (now uid : String) (lk1 : List (String × Category1Row))
    (lk2 : List (String × Category2Row))
    (rows : List ExpSheetRow) (i : ℕ)
    (h : ∀ row ∈ rows, expRowKept lk1 lk2 row = false) :
    keptExpenses now uid lk1 lk2 rows i = [] := by
  induction rows generalizing i with
  | nil => simp [keptExpenses]
  | cons row tl ih =>
    have h0 := h row (List.mem_cons_self _ _)
    simp only [keptExpenses, h0, Bool.false_eq_true, if_false]
    exact ih i (fun r hr => h r (List.mem_cons_of_mem _ hr))

theorem expRowKept_eq_names (db : DB) (uid : String) (row : ExpSheetRow) :
    expRowKept (buildC1Lookup db uid) (buildC2Lookup db uid) row
      = expRowKeptNames ((db.userC1 uid).map Category1Row.name)
          ((db.userC2 uid).map (fun c => c.c1_name ++ "/" ++ c.name)) row := by
  unfold expRowKept expRowKeptNames
  congr 2
  · congr 1
    · rw [Bool.eq_iff_iff]
      rw [decide_eq_true_iff]
      exact buildC1Lookup_isSome db uid _
  · rw [Bool.eq_iff_iff]
    rw [decide_eq_true_iff]
    exact buildC2Lookup_isSome db uid _

theorem expenseDate_indep (now1 now2 : String) (row : ExpSheetRow)
    (h : (isoParse (replaceZ (row.date.getD ""))).isSome) :
    expenseDate now1 row = expenseDate now2 row := by
  unfold expenseDate
  cases hp : isoParse (replaceZ (row.date.getD "")) with
  | some t => rfl
  | none => rw [hp] at h; simp at h

theorem expOutProj_indep (now1 now2 uid : String) (row : ExpSheetRow)
    (h : (isoParse (replaceZ (row.date.getD ""))).isSome) :
    expOutProj now1 uid row = expOutProj now2 uid row := by
  unfold expOutProj
  rw [expenseDate_indep now1 now2 row h]

/-- Characterization of a hydration whose two remote reads both succeed,
for an existing non-local user: the `users` table is untouched, the
user's rebuilt cache projections are functions of the sheet contents
alone (plus `now` for fallback dates), and the events are the cleanup
commit followed by the two reads. -/
theorem hydrate_ok_spec (now : String) (db : DB) (uid : String) (user : UserRow)
    (catRows : List CatSheetRow) (expRows : List ExpSheetRow)
    (hu : db.findUser uid = some user) (hloc : user.categories_sheet_id ≠ "local") :
    (hydrate_user_data now db uid (.ok catRows) (.ok expRows)).db.users = db.users ∧
    userC1Proj (hydrate_user_data now db uid (.ok catRows) (.ok expRows)).db uid
      = (newNames catRows []).map (fun n => (n, true)) ∧
    userC2Proj (hydrate_user_data now db uid (.ok catRows) (.ok expRows)).db uid
      = (catRows.filter catRowKept).map
          (fun row => (rowCat1n row, rowCat2n row, rowCatActive row)) ∧
    userExpProj (hydrate_user_data now db uid (.ok catRows) (.ok expRows)).db uid
      = (expRows.filter (expRowKeptNames (newNames catRows [])
            (keptKeys catRows))).map (expOutProj now uid) ∧
    (hydrate_user_data now db uid (.ok catRows) (.ok expRows)).events
      = [.clearCommitted, .readCategories user.categories_sheet_id,
         .readExpenses user.expenses_sheet_id] := by
  have hun : hydrate_user_data now db uid (.ok catRows) (.ok expRows)
      = ⟨(expPhase now uid (catPhase now uid (clearUser db uid) catRows) expRows).1,
         [.clearCommitted, .readCategories user.categories_sheet_id,
          .readExpenses user.expenses_sheet_id],
         (expPhase now uid (catPhase now uid (clearUser db uid) catRows) expRows).2⟩ := by
    simp only [hydrate_user_data, hu, if_neg hloc]
  set db1 := clearUser db uid with hdb1
  set db2 := catPhase now uid db1 catRows with hdb2
  have hphase : db2 = (catRows.foldl (catStep now uid) (db1, [])).1 := rfl
  have hc := catFold_proj now uid catRows db1 []
  rw [← hphase] at hc
  obtain ⟨hcu, hce, hcn, hc1, hc2, -⟩ := hc
  -- the user's projections after the categories phase
  have hc1u : (db2.userC1 uid).map c1Proj = (newNames catRows []).map (fun n => (n, true)) := by
    rw [hc1, hdb1, userC1_clearUser]
    simp
  have hc2u : (db2.userC2 uid).map c2Proj
      = (catRows.filter catRowKept).map
          (fun row => (rowCat1n row, rowCat2n row, rowCatActive row)) := by
    rw [hc2, hdb1, userC2_clearUser]
    simp
  -- the lookup key lists after the categories phase
  have hnames : (db2.userC1 uid).map Category1Row.name = newNames catRows [] := by
    have : (db2.userC1 uid).map Category1Row.name
        = ((db2.userC1 uid).map c1Proj).map Prod.fst := by
      rw [List.map_map]
      rfl
    rw [this, hc1u, List.map_map]
    exact List.map_id _
  have hkeys : (db2.userC2 uid).map (fun c => c.c1_name ++ "/" ++ c.name)
      = keptKeys catRows := by
    have : (db2.userC2 uid).map (fun c => c.c1_name ++ "/" ++ c.name)
        = ((db2.userC2 uid).map c2Proj).map (fun t => t.1 ++ "/" ++ t.2.1) := by
      rw [List.map_map]
      rfl
    rw [this, hc2u, List.map_map]
    rfl
  -- the expenses phase
  set lk1 := buildC1Lookup db2 uid with hlk1
  set lk2 := buildC2Lookup db2 uid with hlk2
  have hphase2 : expPhase now uid db2 expRows
      = expRows.foldl (expStep now uid lk1 lk2) (db2, []) := rfl
  have he := expFold_spec now uid lk1 lk2 expRows db2 []
  rw [← hphase2] at he
  obtain ⟨heu, he1, he2, -, -, hee, -⟩ := he
  have hkept : ∀ row ∈ expRows, expRowKept lk1 lk2 row
      = expRowKeptNames (newNames catRows []) (keptKeys catRows) row := by
    intro row _
    rw [hlk1, hlk2, expRowKept_eq_names db2 uid row, hnames, hkeys]
  have hdbeq : (hydrate_user_data now db uid (.ok catRows) (.ok expRows)).db
      = (expPhase now uid db2 expRows).1 := by rw [hun]
  refine ⟨?_, ?_, ?_, ?_, ?_⟩
  · rw [hdbeq]
    simpa [hdb1, clearUser] using heu.trans hcu
  · rw [hdbeq]
    unfold userC1Proj DB.userC1
    rw [he1]
    exact hc1u
  · rw [hdbeq]
    unfold userC2Proj DB.userC2
    rw [he2]
    exact hc2u
  · rw [hdbeq]
    unfold userExpProj DB.userExpenses
    rw [hee, List.filter_append]
    rw [List.map_append]
    have hclear : (db2.expenses.filter (fun r => r.user_id == uid)) = [] := by
      have : db2.expenses = db1.expenses := hce
      rw [this]
      have := userExpenses_clearUser db uid
      unfold DB.userExpenses at this
      exact this
    rw [hclear]
    rw [keptExpenses_filter_user, keptExpenses_map_expProj]
    rw [List.filter_congr hkept]
    simp
  · rw [hun]

/-- Membership in the minted-name list: a name is minted exactly when it
is not already a `c1_map` key and some kept row carries it. -/
theorem mem_newNames : ∀ (rows : List CatSheetRow) (ks : List String) (n : String),
    n ∈ newNames rows ks
      ↔ n ∉ ks ∧ ∃ row ∈ rows, catRowKept row = true ∧ rowCat1n row = n := by
  intro rows
  induction rows with
  | nil => simp [newNames]
  | cons row tl ih =>
    intro ks n
    by_cases hk : catRowKept row
    · by_cases hmem : rowCat1n row ∈ ks
      · rw [show newNames (row :: tl) ks = newNames tl ks by simp [newNames, hk, hmem]]
        rw [ih]
        constructor
        · rintro ⟨hnk, r, hr, hkr, hnr⟩
          exact ⟨hnk, r, List.mem_cons_of_mem _ hr, hkr, hnr⟩
        · rintro ⟨hnk, r, hr, hkr, hnr⟩
          rcases List.mem_cons.mp hr with hr0 | hr1
          · subst hr0
            rw [hnr] at hmem
            exact absurd hmem hnk
          · exact ⟨hnk, r, hr1, hkr, hnr⟩
      · rw [show newNames (row :: tl) ks
            = rowCat1n row :: newNames tl (ks ++ [rowCat1n row]) by simp [newNames, hk, hmem]]
        rw [List.mem_cons, ih]
        constructor
        · rintro (heq | ⟨hnk, r, hr, hkr, hnr⟩)
          · subst heq
            exact ⟨hmem, row, List.mem_cons_self _ _, hk, rfl⟩
          · rw [List.mem_append] at hnk
            push_neg at hnk
            exact ⟨hnk.1, r, List.mem_cons_of_mem _ hr, hkr, hnr⟩
        · rintro ⟨hnk, r, hr, hkr, hnr⟩
          by_cases hn : n = rowCat1n row
          · exact Or.inl hn
          · right
            refine ⟨?_, ?_⟩
            · rw [List.mem_append]
              push_neg
              exact ⟨hnk, by simpa using hn⟩
            · rcases List.mem_cons.mp hr with hr0 | hr1
              · subst hr0
                exact absurd hnr.symm (by simpa [eq_comm] using hn)
              · exact ⟨r, hr1, hkr, hnr⟩
    · rw [show newNames (row :: tl) ks = newNames tl ks by simp [newNames, hk]]
      rw [ih]
      constructor
      · rintro ⟨hnk, r, hr, hkr, hnr⟩
        exact ⟨hnk, r, List.mem_cons_of_mem _ hr, hkr, hnr⟩
      · rintro ⟨hnk, r, hr, hkr, hnr⟩
        rcases List.mem_cons.mp hr with hr0 | hr1
        · subst hr0
          exact absurd hkr hk
        · exact ⟨hnk, r, hr1, hkr, hnr⟩

/-! ## Claim theorems -/

/-- C1 (code bug): for a user whose expenses-sheet id is the `"local"`
sentinel, the sync section of `create_expense` still issues a remote
append call (`append_expense("local", ...)`) — the `"local"` check
present on the soft-delete path is missing on the create path, so the
claimed short-circuit fails for expense creation. -/
theorem c1_create_sync_issues_remote_append_for_local_user :
    create_expense_sync (some localUser) = [RemoteCall.appendExpense "local"] ∧
    delete_expense_sync (some localUser) = [] := by
  constructor
  · rfl
  · rfl

/-- C4 counterexample: `"true "` (trailing blank) upper-cases to
`"TRUE "`, which is not `"TRUE"`, so it parses to `false` — the claim
lists it as parsing to `true`. -/
theorem c4_true_trailing_space_parses_false :
    parseSheetBool "true " = false := by decide

/-- C4 (amended): the parser maps a value to `true` exactly when its
upper-cased form is the literal `"TRUE"`; in particular `"TRUE"`,
`"true "`, `"False"`, `""`, `"1"` parse to
`true, false, false, false, false`, and mixed case `"tRuE"` parses true. -/
theorem c4_boolean_parsing_amended :
    parseSheetBool "TRUE" = true ∧
    parseSheetBool "true " = false ∧
    parseSheetBool "False" = false ∧
    parseSheetBool "" = false ∧
    parseSheetBool "1" = false ∧
    parseSheetBool "tRuE" = true ∧
    (∀ s : String, parseSheetBool s = true ↔ upperAscii s = "TRUE") := by
  refine ⟨by decide, by decide, by decide, by decide, by decide, by decide, ?_⟩
  intro s
  unfold parseSheetBool
  exact beq_iff_eq

/-- C8 (code bug): hydrating a user from a sheet row whose amount cell is
`"-5"` inserts an `Expense` cache row with amount `-5 < 0`, although the
`Expense` model declares `amount: float = Field(ge=0)` (SQLModel table
models skip this validation on construction). -/
theorem c8_hydration_inserts_negative_amount :
    ((hydrate_user_data "2024-06-01T00:00:00" demoDB "u1"
        (.ok demoCatRows) (.ok [negAmountRow])).db.userExpenses "u1").map ExpenseRow.amount
      = [mkRat (-5) 1] ∧ mkRat (-5) 1 < 0 := by
  constructor
  · decide
  · decide

/-- C7 counterexample: an expense-sheet row that resolves to a real
category but whose amount cell is the empty string is not inserted at all
(the `float('')` exception skips the row), contradicting "inserted with
amount 0"; its warnings are empty, showing it was not category-skipped. -/
theorem c7_unparseable_amount_row_not_inserted :
    (hydrate_user_data "2024-06-01T00:00:00" demoDB "u1"
        (.ok demoCatRows) (.ok [emptyAmountRow])).db.userExpenses "u1" = [] ∧
    (hydrate_user_data "2024-06-01T00:00:00" demoDB "u1"
        (.ok demoCatRows) (.ok [emptyAmountRow])).warnings = [] := by
  constructor
  · decide
  · decide

/-- C2 counterexample: with an unparseable date cell the hydrator stores
`datetime.utcnow()`, so two consecutive hydrations at different times
produce different date field values — the cache contents are not
identical between the runs. -/
theorem c2_hydrate_twice_differs_on_unparseable_date :
    (((hydrate_user_data "2024-01-01T00:00:00" demoDB "u1"
        (.ok demoCatRows) (.ok [badDateRow])).db.userExpenses "u1").map ExpenseRow.date
      = ["2024-01-01T00:00:00"]) ∧
    ((((hydrate_user_data "2024-01-01T00:00:05"
        (hydrate_user_data "2024-01-01T00:00:00" demoDB "u1"
          (.ok demoCatRows) (.ok [badDateRow])).db "u1"
        (.ok demoCatRows) (.ok [badDateRow])).db.userExpenses "u1").map ExpenseRow.date)
      = ["2024-01-01T00:00:05"]) ∧
    (["2024-01-01T00:00:00"] : List String) ≠ ["2024-01-01T00:00:05"] := by
  refine ⟨by decide, by decide, by decide⟩

/-- C5 counterexample: two rows identical in date, amount and subcategory
whose creation timestamps differ only in fractional seconds; deleting the
later one (by its creation timestamp `...222222`) marks the EARLIER row,
because the match truncates fractional seconds — the other row is
affected, contradicting the claimed precision. -/
theorem c5_delete_marks_other_row_same_second :
    mark_expense_deleted "2024-01-01T10:00" "100.0" 100 "Snacks"
        "2024-01-01T10:00:00.222222" [expensesHeader, sheetRowEarly, sheetRowLate]
      = (true, [expensesHeader, setDeletedCell sheetRowEarly, sheetRowLate]) ∧
    setDeletedCell sheetRowEarly ≠ sheetRowEarly := by
  constructor
  · decide
  · decide

/-- C10: hydrating a `user_id` with no `User` row returns immediately:
the database value is unchanged and no event (in particular no remote
read) is issued. -/
theorem c10_missing_user_no_changes_no_remote_calls
    (now : String) (db : DB) (uid : String)
    (catRead : Except Unit (List CatSheetRow)) (expRead : Except Unit (List ExpSheetRow))
    (h : db.findUser uid = none) :
    hydrate_user_data now db uid catRead expRead = ⟨db, [], []⟩ := by
  simp [hydrate_user_data, h]

/-- C10 witness: concrete instance on an empty cache. -/
theorem c10_witness :
    hydrate_user_data "2024-06-01T00:00:00" DB.empty "nobody"
        (.ok demoCatRows) (.ok [validExpRow]) = ⟨DB.empty, [], []⟩ :=
  c10_missing_user_no_changes_no_remote_calls _ _ _ _ _ (by decide)

/-- C9: for an existing non-local user, hydration issues its remote reads
only after the cleanup commit (event order), and when the categories read
fails the committed deletion is not restored: whatever the expenses read
does, the user's Category1, Category2 and Expense cache rows end empty. -/
theorem c9_failed_categories_read_leaves_cache_empty
    (now : String) (db : DB) (uid : String) (user : UserRow)
    (expRead : Except Unit (List ExpSheetRow))
    (hu : db.findUser uid = some user) (hloc : user.categories_sheet_id ≠ "local") :
    (hydrate_user_data now db uid (.error ()) expRead).events
      = [.clearCommitted, .readCategories user.categories_sheet_id,
         .readExpenses user.expenses_sheet_id] ∧
    (hydrate_user_data now db uid (.error ()) expRead).db.userC1 uid = [] ∧
    (hydrate_user_data now db uid (.error ()) expRead).db.userC2 uid = [] ∧
    (hydrate_user_data now db uid (.error ()) expRead).db.userExpenses uid = [] := by
  cases expRead with
  | error e =>
    have hun : hydrate_user_data now db uid (.error ()) (.error e)
        = ⟨clearUser db uid,
           [.clearCommitted, .readCategories user.categories_sheet_id,
            .readExpenses user.expenses_sheet_id], []⟩ := by
      simp only [hydrate_user_data, hu, if_neg hloc]
    rw [hun]
    exact ⟨rfl, userC1_clearUser db uid, userC2_clearUser db uid, userExpenses_clearUser db uid⟩
  | ok rows =>
    have hun : hydrate_user_data now db uid (.error ()) (.ok rows)
        = ⟨(expPhase now uid (clearUser db uid) rows).1,
           [.clearCommitted, .readCategories user.categories_sheet_id,
            .readExpenses user.expenses_sheet_id],
           (expPhase now uid (clearUser db uid) rows).2⟩ := by
      simp only [hydrate_user_data, hu, if_neg hloc]
    rw [hun]
    set db1 := clearUser db uid with hdb1
    set lk1 := buildC1Lookup db1 uid with hlk1
    set lk2 := buildC2Lookup db1 uid with hlk2
    have hphase : expPhase now uid db1 rows = rows.foldl (expStep now uid lk1 lk2) (db1, []) := rfl
    have he := expFold_spec now uid lk1 lk2 rows db1 []
    rw [← hphase] at he
    obtain ⟨-, he1, he2, -, -, hee, -⟩ := he
    have hlk1nil : lk1 = [] := by
      rw [hlk1, hdb1]
      unfold buildC1Lookup
      rw [userC1_clearUser]
      rfl
    have hkept : ∀ row ∈ rows, expRowKept lk1 lk2 row = false := by
      intro row _
      rw [hlk1nil]
      simp [expRowKept, alookup]
    refine ⟨rfl, ?_, ?_, ?_⟩
    · unfold DB.userC1
      rw [he1]
      exact userC1_clearUser db uid
    · unfold DB.userC2
      rw [he2]
      exact userC2_clearUser db uid
    · unfold DB.userExpenses
      rw [hee, keptExpenses_eq_nil now uid lk1 lk2 rows db1.nextExpId hkept,
        List.append_nil]
      exact userExpenses_clearUser db uid

/-- C9 witness: concrete failing categories read on the demo cache. -/
theorem c9_witness :
    (hydrate_user_data "2024-06-01T00:00:00" demoDB "u1" (.error ())
        (.ok [validExpRow])).events
      = [.clearCommitted, .readCategories "CATS", .readExpenses "EXPS"] ∧
    (hydrate_user_data "2024-06-01T00:00:00" demoDB "u1" (.error ())
        (.ok [validExpRow])).db.userC1 "u1" = [] ∧
    (hydrate_user_data "2024-06-01T00:00:00" demoDB "u1" (.error ())
        (.ok [validExpRow])).db.userC2 "u1" = [] ∧
    (hydrate_user_data "2024-06-01T00:00:00" demoDB "u1" (.error ())
        (.ok [validExpRow])).db.userExpenses "u1" = [] :=
  c9_failed_categories_read_leaves_cache_empty "2024-06-01T00:00:00" demoDB "u1" demoUser
    (.ok [validExpRow]) (by decide) (by decide)


/-- C3: hydrating the categories rows
`[("Food","Snacks","TRUE"), ("Food","Groceries","FALSE")]` mints exactly
one `Category1` named `Food` (created active) and two `Category2` rows
with active flags `true, false`, both carrying that single `Category1`'s
id as `c1_id` and `"Food"` as `c1_name`; in general, over any categories
sheet, the rebuilt `Category1` names are pairwise distinct (the first
occurrence of each distinct `c1_name` mints exactly one row), every kept
row's `c1_name` has an active `Category1`, and every `Category2` row's
`c1_id` is the id of the `Category1` bearing its `c1_name`. -/
theorem c3_hierarchy_reconstruction :
    ((hydrate_user_data "2024-06-01T00:00:00" demoDB "u1" (.ok demoCatRows) (.ok [])).db.category1
        = [⟨0, "u1", "Food", true, "2024-06-01T00:00:00"⟩] ∧
      (hydrate_user_data "2024-06-01T00:00:00" demoDB "u1" (.ok demoCatRows) (.ok [])).db.category2
        = [⟨0, "u1", "Snacks", 0, "Food", true, "2024-06-01T00:00:00"⟩,
           ⟨1, "u1", "Groceries", 0, "Food", false, "2024-06-01T00:00:00"⟩]) ∧
    ∀ (now uid : String) (db : DB) (rows : List CatSheetRow),
      (((catPhase now uid (clearUser db uid) rows).userC1 uid).map Category1Row.name).Nodup ∧
      (∀ row ∈ rows, catRowKept row = true →
        ∃ c1 ∈ (catPhase now uid (clearUser db uid) rows).userC1 uid,
          c1.name = rowCat1n row ∧ c1.active = true) ∧
      (∀ c2 ∈ (catPhase now uid (clearUser db uid) rows).userC2 uid,
        ∃ c1 ∈ (catPhase now uid (clearUser db uid) rows).userC1 uid,
          c1.name = c2.c1_name ∧ c1.id = c2.c1_id) := by
  refine ⟨⟨by decide, by decide⟩, ?_⟩
  intro now uid db rows
  set db1 := clearUser db uid with hdb1
  have hphase : catPhase now uid db1 rows = (rows.foldl (catStep now uid) (db1, [])).1 := rfl
  have hinv := catFold_inv now uid rows db1 []
    (by rw [hdb1, userC1_clearUser]; rfl)
    (by simp)
    (by simp)
    (by intro c2 hc2; rw [hdb1, userC2_clearUser] at hc2; simp at hc2)
  obtain ⟨H1, H2, H3, H4⟩ := hinv
  have hproj := catFold_proj now uid rows db1 []
  obtain ⟨-, -, -, hp1, -, -⟩ := hproj
  have hp1u : ((rows.foldl (catStep now uid) (db1, [])).1.userC1 uid).map c1Proj
      = (newNames rows []).map (fun n => (n, true)) := by
    rw [hp1, hdb1, userC1_clearUser]
    simp
  refine ⟨?_, ?_, ?_⟩
  · rw [hphase]
    have hmm : (((rows.foldl (catStep now uid) (db1, [])).1.userC1 uid).map Category1Row.name)
        = ((((rows.foldl (catStep now uid) (db1, [])).1.userC1 uid).map
            (fun c => (c.name, c.id))).map Prod.fst) := by
      rw [List.map_map]
      rfl
    rw [hmm, H1]
    exact H2
  · intro row hrow hkept
    rw [hphase]
    have hmemNN : rowCat1n row ∈ newNames rows [] := by
      rw [mem_newNames]
      exact ⟨by simp, row, hrow, hkept, rfl⟩
    have hmm : (rowCat1n row, true)
        ∈ ((rows.foldl (catStep now uid) (db1, [])).1.userC1 uid).map c1Proj := by
      rw [hp1u]
      exact List.mem_map_of_mem _ hmemNN
    obtain ⟨c1, hc1mem, hc1eq⟩ := List.mem_map.mp hmm
    refine ⟨c1, hc1mem, ?_, ?_⟩
    · simpa [c1Proj] using congrArg Prod.fst hc1eq
    · simpa [c1Proj] using congrArg Prod.snd hc1eq
  · intro c2 hc2
    rw [hphase] at hc2 ⊢
    have hl := H4 c2 hc2
    have hmem := alookup_mem hl
    rw [← H1] at hmem
    obtain ⟨c1, hc1mem, hc1eq⟩ := List.mem_map.mp hmem
    refine ⟨c1, hc1mem, ?_, ?_⟩
    · simpa using congrArg Prod.fst hc1eq
    · simpa using congrArg Prod.snd hc1eq

/-- C6: during the expenses step no category row is created or removed
(no placeholder categories); the warnings are exactly the non-blank rows
whose category pair does not resolve against the lookups, in order; and
the inserted expense rows are exactly the resolvable, parseable rows —
every other valid row of the batch is still inserted.  Concretely, with
categories `Food/Snacks, Food/Groceries`, the batch
`[Food/Ghost, Food/Snacks]` yields exactly the warning
`("Food","Ghost")` and inserts only the valid row. -/
theorem c6_orphan_rows_skipped_with_warning :
    (∀ (now uid : String) (db : DB) (rows : List ExpSheetRow),
      (expPhase now uid db rows).1.category1 = db.category1 ∧
      (expPhase now uid db rows).1.category2 = db.category2 ∧
      (expPhase now uid db rows).2
        = (rows.filter (expRowWarn (buildC1Lookup db uid) (buildC2Lookup db uid))).map
            (fun row => (rowExp1n row, rowExp2n row)) ∧
      ((expPhase now uid db rows).1.expenses).map expProj
        = db.expenses.map expProj
          ++ (rows.filter (expRowKept (buildC1Lookup db uid) (buildC2Lookup db uid))).map
              (expOutProj now uid)) ∧
    ((hydrate_user_data "2024-06-01T00:00:00" demoDB "u1"
        (.ok demoCatRows) (.ok [ghostRow, validExpRow])).warnings
      = [("Food", "Ghost")] ∧
      userExpProj (hydrate_user_data "2024-06-01T00:00:00" demoDB "u1"
        (.ok demoCatRows) (.ok [ghostRow, validExpRow])).db "u1"
      = [⟨"u1", "2024-01-03", 20, "Food", "Snacks", "UPI", some "n", none, none, false⟩]) := by
  constructor
  · intro now uid db rows
    set lk1 := buildC1Lookup db uid with hlk1
    set lk2 := buildC2Lookup db uid with hlk2
    have hphase : expPhase now uid db rows = rows.foldl (expStep now uid lk1 lk2) (db, []) := rfl
    have he := expFold_spec now uid lk1 lk2 rows db []
    rw [← hphase] at he
    obtain ⟨-, he1, he2, -, -, hee, hw⟩ := he
    refine ⟨he1, he2, by simpa using hw, ?_⟩
    rw [hee, List.map_append, keptExpenses_map_expProj]
  · constructor
    · decide
    · decide

/-- C7 (amended): for a row with non-blank, resolvable categories, a
missing amount key inserts the row with amount `0`; a present but
unparseable amount skips the row entirely; a parseable amount inserts its
value. -/
theorem c7_amount_coercion_amended (now uid : String) (db : DB) (row : ExpSheetRow)
    (hb : ¬(rowExp1n row = "" ∨ rowExp2n row = ""))
    (h1 : (alookup (buildC1Lookup db uid) (rowExp1n row)).isSome = true)
    (h2 : (alookup (buildC2Lookup db uid) (rowExpKey row)).isSome = true) :
    (row.amount = none →
      ((expPhase now uid db [row]).1.expenses).map ExpenseRow.amount
        = db.expenses.map ExpenseRow.amount ++ [0]) ∧
    (∀ s, row.amount = some s → parseFloat s = none →
      (expPhase now uid db [row]).1.expenses = db.expenses) ∧
    (∀ s q, row.amount = some s → parseFloat s = some q →
      ((expPhase now uid db [row]).1.expenses).map ExpenseRow.amount
        = db.expenses.map ExpenseRow.amount ++ [q]) := by
  obtain ⟨c1, hc1⟩ := Option.isSome_iff_exists.mp h1
  obtain ⟨c2, hc2⟩ := Option.isSome_iff_exists.mp h2
  refine ⟨?_, ?_, ?_⟩
  · intro hnone
    have hamt : expenseAmount row = some 0 := by
      unfold expenseAmount
      rw [hnone]
    simp [expPhase, expStep, hb, hc1, hc2, hamt]
  · intro s hs hpf
    have hamt : expenseAmount row = none := by
      unfold expenseAmount
      rw [hs]
      exact hpf
    simp [expPhase, expStep, hb, hc1, hc2, hamt]
  · intro s q hs hpf
    have hamt : expenseAmount row = some q := by
      unfold expenseAmount
      rw [hs]
      exact hpf
    simp [expPhase, expStep, hb, hc1, hc2, hamt]

/-- C7 witness: a concrete row with a missing amount key is inserted with
amount 0 into a seeded cache. -/
theorem c7_amended_witness :
    ((expPhase "T1" "u1" seededDB [noAmountRow]).1.expenses).map ExpenseRow.amount = [0] := by
  have h := (c7_amount_coercion_amended "T1" "u1" seededDB noAmountRow
    (by decide) (by decide) (by decide)).1 rfl
  simpa using h

/-- Updating the element at the length of the left part updates the head
of the right part. -/
theorem listModify_append_cons {α : Type} (xs : List α) (y : α) (zs : List α) (f : α → α) :
    listModify (xs ++ y :: zs) xs.length f = xs ++ f y :: zs := by
  induction xs with
  | nil => rfl
  | cons x tl ih => simp [listModify, ih]

/-- A successful scan outcome decomposes the rows as a prefix of
non-matching rows followed by the first matching row. -/
theorem markScan_found_elim (ed as : String) (av : ℚ) (c2 ca : String) :
    ∀ (rows : List (List String)) (i j : ℕ),
    markScan ed as av c2 ca rows i = .found j →
    ∃ pre r post, rows = pre ++ r :: post ∧ j = i + pre.length ∧
      rowMatches ed as av c2 ca r = true ∧
      ∀ r2 ∈ pre, rowMatches ed as av c2 ca r2 = false := by
  intro rows
  induction rows with
  | nil => intro i j h; simp [markScan] at h
  | cons r rs ih =>
    intro i j h
    by_cases hab : rowAborts as r
    · simp [markScan, hab] at h
    · by_cases hm : rowMatches ed as av c2 ca r
      · have hj : j = i := by
          simp only [markScan, hab, Bool.false_eq_true, if_false, hm, if_true] at h
          cases h
          rfl
        exact ⟨[], r, rs, rfl, by simp [hj], hm, by simp⟩
      · simp only [markScan, hab, Bool.false_eq_true, if_false, hm, if_true] at h
        obtain ⟨pre, r2, post, hdec, hjj, hm2, hpre⟩ := ih (i + 1) j h
        refine ⟨r :: pre, r2, post, by simp [hdec], by simp [hjj]; omega, hm2, ?_⟩
        intro r3 hr3
        rcases List.mem_cons.mp hr3 with h3 | h3
        · rw [h3]
          simpa using hm
        · exact hpre r3 h3

/-- C5 (amended): `mark_expense_deleted` either returns `False` with the
sheet unchanged (no match before any abort), or splits the sheet as
`pre ++ r :: post` with `r` the first post-header row satisfying the
four-predicate match, returns `True` and rewrites exactly `r`'s
soft-delete column; in particular every row not satisfying the match —
e.g. one whose creation-timestamp column does not start with the
second-truncated target — is never modified.  If no post-header row
matches, it returns `False` and changes no row. -/
theorem c5_mark_expense_deleted_amended (ed as : String) (av : ℚ) (c2 ca : String)
    (all : List (List String)) :
    (mark_expense_deleted ed as av c2 ca all = (false, all) ∨
      ∃ pre r post, all = pre ++ r :: post ∧ 1 ≤ pre.length ∧
        rowMatches ed as av c2 ca r = true ∧
        (∀ r2 ∈ pre.drop 1, rowMatches ed as av c2 ca r2 = false) ∧
        mark_expense_deleted ed as av c2 ca all
          = (true, pre ++ setDeletedCell r :: post)) ∧
    ((∀ r ∈ all.drop 1, rowMatches ed as av c2 ca r = false) →
      mark_expense_deleted ed as av c2 ca all = (false, all)) := by
  have main : mark_expense_deleted ed as av c2 ca all = (false, all) ∨
      ∃ pre r post, all = pre ++ r :: post ∧ 1 ≤ pre.length ∧
        rowMatches ed as av c2 ca r = true ∧
        (∀ r2 ∈ pre.drop 1, rowMatches ed as av c2 ca r2 = false) ∧
        mark_expense_deleted ed as av c2 ca all
          = (true, pre ++ setDeletedCell r :: post) := by
    cases hscan : markScan ed as av c2 ca (all.drop 1) 1 with
    | aborted => left; simp only [mark_expense_deleted, hscan]
    | notFound => left; simp only [mark_expense_deleted, hscan]
    | found j =>
      right
      obtain ⟨pre, r, post, hdec, hj, hm, hpre⟩ :=
        markScan_found_elim ed as av c2 ca (all.drop 1) 1 j hscan
      cases all with
      | nil => simp [markScan] at hscan
      | cons hd tl =>
        simp only [List.drop_succ_cons, List.drop_zero] at hdec
        subst hdec
        refine ⟨hd :: pre, r, post, by simp, by simp, hm, by simpa using hpre, ?_⟩
        have hlen : j = (hd :: pre).length := by
          simp only [List.length_cons, hj]
          omega
        simp only [mark_expense_deleted, hscan]
        rw [hlen]
        have hsplit : hd :: (pre ++ r :: post) = (hd :: pre) ++ r :: post := by simp
        rw [hsplit, listModify_append_cons]
  refine ⟨main, ?_⟩
  intro hnone
  rcases main with h | ⟨pre, r, post, hdec, hlen, hm, -, -⟩
  · exact h
  · exfalso
    have hr : r ∈ all.drop 1 := by
      cases pre with
      | nil => simp at hlen
      | cons p0 ptl =>
        rw [hdec]
        simp
    rw [hnone r hr] at hm
    simp at hm

/-- C5 amended witness: a concrete sheet with no matching row is returned
unchanged with a `False` outcome. -/
theorem c5_amended_witness :
    mark_expense_deleted "2024-01-01T10:00" "100.0" 100 "Nope"
        "2024-01-01T10:00:00.222222" [expensesHeader, sheetRowEarly]
      = (false, [expensesHeader, sheetRowEarly]) :=
  (c5_mark_expense_deleted_amended "2024-01-01T10:00" "100.0" 100 "Nope"
    "2024-01-01T10:00:00.222222" [expensesHeader, sheetRowEarly]).2 (by decide)

/-- C2 (amended): for an existing non-local user and fixed sheet
contents whose expense dates all parse, two consecutive hydrations agree
on the identity-free projections of the user's `Category1`, `Category2`
and `Expense` cache rows — same names, flags, denormalized names,
amounts, dates and fields — and hence on all three row counts.  (The
generated ids, the `created_at`/`updated_at` timestamps, and the fallback
date of an unparseable date cell are exactly what can differ between
runs.) -/
theorem c2_hydrate_idempotent_up_to_ids_and_timestamps
    (now1 now2 : String) (db : DB) (uid : String) (user : UserRow)
    (catRows : List CatSheetRow) (expRows : List ExpSheetRow)
    (hu : db.findUser uid = some user) (hloc : user.categories_sheet_id ≠ "local")
    (hdates : ∀ row ∈ expRows, (isoParse (replaceZ (row.date.getD ""))).isSome = true) :
    (userC1Proj (hydrate_user_data now1 db uid (.ok catRows) (.ok expRows)).db uid
      = userC1Proj (hydrate_user_data now2
          (hydrate_user_data now1 db uid (.ok catRows) (.ok expRows)).db uid
          (.ok catRows) (.ok expRows)).db uid) ∧
    (userC2Proj (hydrate_user_data now1 db uid (.ok catRows) (.ok expRows)).db uid
      = userC2Proj (hydrate_user_data now2
          (hydrate_user_data now1 db uid (.ok catRows) (.ok expRows)).db uid
          (.ok catRows) (.ok expRows)).db uid) ∧
    (userExpProj (hydrate_user_data now1 db uid (.ok catRows) (.ok expRows)).db uid
      = userExpProj (hydrate_user_data now2
          (hydrate_user_data now1 db uid (.ok catRows) (.ok expRows)).db uid
          (.ok catRows) (.ok expRows)).db uid) ∧
    (((hydrate_user_data now1 db uid (.ok catRows) (.ok expRows)).db.userC1 uid).length
      = ((hydrate_user_data now2
          (hydrate_user_data now1 db uid (.ok catRows) (.ok expRows)).db uid
          (.ok catRows) (.ok expRows)).db.userC1 uid).length) ∧
    (((hydrate_user_data now1 db uid (.ok catRows) (.ok expRows)).db.userC2 uid).length
      = ((hydrate_user_data now2
          (hydrate_user_data now1 db uid (.ok catRows) (.ok expRows)).db uid
          (.ok catRows) (.ok expRows)).db.userC2 uid).length) ∧
    (((hydrate_user_data now1 db uid (.ok catRows) (.ok expRows)).db.userExpenses uid).length
      = ((hydrate_user_data now2
          (hydrate_user_data now1 db uid (.ok catRows) (.ok expRows)).db uid
          (.ok catRows) (.ok expRows)).db.userExpenses uid).length) := by
  obtain ⟨su1, sc1a, sc2a, se1, -⟩ := hydrate_ok_spec now1 db uid user catRows expRows hu hloc
  have hu2 : (hydrate_user_data now1 db uid (.ok catRows) (.ok expRows)).db.findUser uid
      = some user := by
    unfold DB.findUser
    rw [su1]
    exact hu
  obtain ⟨-, sc1b, sc2b, se2, -⟩ := hydrate_ok_spec now2
    (hydrate_user_data now1 db uid (.ok catRows) (.ok expRows)).db uid user
    catRows expRows hu2 hloc
  have hexp : userExpProj (hydrate_user_data now1 db uid (.ok catRows) (.ok expRows)).db uid
      = userExpProj (hydrate_user_data now2
          (hydrate_user_data now1 db uid (.ok catRows) (.ok expRows)).db uid
          (.ok catRows) (.ok expRows)).db uid := by
    rw [se1, se2]
    apply List.map_congr_left
    intro row hrow
    exact expOutProj_indep now1 now2 uid row (hdates row (List.mem_of_mem_filter hrow))
  have hc1 : userC1Proj (hydrate_user_data now1 db uid (.ok catRows) (.ok expRows)).db uid
      = userC1Proj (hydrate_user_data now2
          (hydrate_user_data now1 db uid (.ok catRows) (.ok expRows)).db uid
          (.ok catRows) (.ok expRows)).db uid := by
    rw [sc1a, sc1b]
  have hc2 : userC2Proj (hydrate_user_data now1 db uid (.ok catRows) (.ok expRows)).db uid
      = userC2Proj (hydrate_user_data now2
          (hydrate_user_data now1 db uid (.ok catRows) (.ok expRows)).db uid
          (.ok catRows) (.ok expRows)).db uid := by
    rw [sc2a, sc2b]
  refine ⟨hc1, hc2, hexp, ?_, ?_, ?_⟩
  · have := congrArg List.length hc1
    simpa [userC1Proj] using this
  · have := congrArg List.length hc2
    simpa [userC2Proj] using this
  · have := congrArg List.length hexp
    simpa [userExpProj] using this

/-- C2 witness: concrete double hydration of the demo user. -/
theorem c2_idempotence_witness :
    (userC1Proj (hydrate_user_data "A" demoDB "u1"
        (.ok demoCatRows) (.ok [validExpRow])).db "u1"
      = userC1Proj (hydrate_user_data "B"
          (hydrate_user_data "A" demoDB "u1" (.ok demoCatRows) (.ok [validExpRow])).db "u1"
          (.ok demoCatRows) (.ok [validExpRow])).db "u1") ∧
    (userExpProj (hydrate_user_data "A" demoDB "u1"
        (.ok demoCatRows) (.ok [validExpRow])).db "u1"
      = userExpProj (hydrate_user_data "B"
          (hydrate_user_data "A" demoDB "u1" (.ok demoCatRows) (.ok [validExpRow])).db "u1"
          (.ok demoCatRows) (.ok [validExpRow])).db "u1") := by
  have h := c2_hydrate_idempotent_up_to_ids_and_timestamps "A" "B" demoDB "u1" demoUser
    demoCatRows [validExpRow] (by decide) (by decide) (by decide)
  exact ⟨h.1, h.2.2.1⟩

end ExpenseTracker
